import Mathlib

/-!
Verification of the sagemath-workspace batch MILP-solving repository.

The development shallowly embeds the three source files:
  * `solving.py` — results-table checkpointing, subprocess-isolated solve
    loop, batch orchestration, directory layer;
  * `model.py` — `create_model`, translating an instance into variables and
    linear constraints (embedded with explicit error propagation, since the
    Python function can raise);
  * `instance.py` — the instance data model.

External collaborators (the CPLEX solver, the Sage graph library, the pandas
persistence layer) are modelled at the interface the core consumes, as the
specification's scope section prescribes: the solver is an oracle producing a
`solving_info` (or a worker crash), pandas is a keyed row store whose cells
preserve the written values, and Sage graphs provide adjacency and hop-count
shortest-path distance.
-/

namespace SageWS

/-- One results-table row (`solving_info` in `solving.py`): solver telemetry
for one instance.  The four float-valued fields are modelled as rationals. -/
structure solving_info where
  time : Rat
  gap : Rat
  best_int_solution : Rat
  best_upper_bound : Rat
  number_nodes : Int
  number_iterat : Int
  status : String
deriving DecidableEq, Repr

/-- The results table: rows keyed by instance identifier, in row order
(a pandas `DataFrame` with a string index). -/
abbrev Table : Type := List (String × solving_info)

/-- `create_table` (`solving.py`): a fresh table with the seven columns and
no rows. -/
def create_table : Table := []

/-- The index (list of row keys) of a table. -/
def tableKeys (t : Table) : List String := t.map Prod.fst

/-- Row lookup by identifier (first row with that index label). -/
def tableLookup (t : Table) (instance_id : String) : Option solving_info :=
  (t.find? (fun p => p.1 == instance_id)).map Prod.snd

/-- `register_instance_info` (`solving.py`): `table.loc[instance_id] = line`.
If the label is already in the index the row is overwritten in place,
otherwise a new row is appended. -/
def register_instance_info (table : Table) (instance_id : String)
    (info : solving_info) : Table :=
  if table.any (fun p => p.1 == instance_id) then
    table.map (fun p => if p.1 == instance_id then (instance_id, info) else p)
  else
    table ++ [(instance_id, info)]

/-- A cell of the persisted delimited table.  Pandas' `to_csv`/`read_csv`
pair is external; per the spec it is a format-stable row store, so a cell is
modelled as the typed value whose printed form is written and re-parsed. -/
inductive Cell where
  | cInt : Int → Cell
  | cRat : Rat → Cell
  | cStr : String → Cell
deriving DecidableEq, Repr

/-- The header line written by `to_csv`: empty index label then the seven
column names used by `create_table`. -/
def csvHeader : List Cell :=
  [Cell.cStr "", Cell.cStr "time", Cell.cStr "gap",
   Cell.cStr "best_int_solution", Cell.cStr "best_upper_bound",
   Cell.cStr "number_nodes", Cell.cStr "number_iterat", Cell.cStr "status"]

/-- One data line of the CSV: index label then the row's seven cells. -/
def rowToCells (instance_id : String) (r : solving_info) : List Cell :=
  [Cell.cStr instance_id, Cell.cRat r.time, Cell.cRat r.gap,
   Cell.cRat r.best_int_solution, Cell.cRat r.best_upper_bound,
   Cell.cInt r.number_nodes, Cell.cInt r.number_iterat, Cell.cStr r.status]

/-- `save_table` (`solving.py`): `table.to_csv(filename)` — header line then
one delimited line per row, index label first. -/
def save_table (table : Table) : List (List Cell) :=
  csvHeader :: table.map (fun p => rowToCells p.1 p.2)

/-- Parse one CSV data line back into an indexed row; fails on arity or
shape mismatch. -/
def parseRow : List Cell → Option (String × solving_info)
  | [Cell.cStr instance_id, Cell.cRat t, Cell.cRat g, Cell.cRat bi,
     Cell.cRat bu, Cell.cInt nn, Cell.cInt ni, Cell.cStr st] =>
      some (instance_id, ⟨t, g, bi, bu, nn, ni, st⟩)
  | _ => none

/-- `load_table` (`solving.py`): `pd.read_csv(filename, index_col=0)` — the
first line is consumed as the header, each following line is parsed into an
indexed row; an empty file is an error. -/
def load_table : List (List Cell) → Option Table
  | [] => none
  | _ :: rows => rows.mapM parseRow

theorem parseRow_rowToCells (instance_id : String) (r : solving_info) :
    parseRow (rowToCells instance_id r) = some (instance_id, r) := by
  cases r
  rfl

theorem load_save_table (t : Table) : load_table (save_table t) = some t := by
  show (t.map fun p => rowToCells p.1 p.2).mapM parseRow = some t
  induction t with
  | nil => rfl
  | cons p rest ih =>
      rw [List.map_cons, List.mapM_cons, parseRow_rowToCells, ih]
      rfl

/-- Claim C6: for every results table and identifier X with a row in it,
saving with `save_table` and reloading with `load_table` yields a table
whose row for X is identical to the one saved. -/
theorem save_load_roundtrip_row (t : Table) (instance_id : String)
    (r : solving_info) (h : tableLookup t instance_id = some r) :
    ∃ t2, load_table (save_table t) = some t2 ∧
      tableLookup t2 instance_id = some r :=
  ⟨t, load_save_table t, h⟩

/-- A concrete row used by several witnesses. -/
def infoA : solving_info :=
  { time := 3/2, gap := 0, best_int_solution := 10, best_upper_bound := 10,
    number_nodes := 5, number_iterat := 7, status := "integer optimal solution" }

/-- Witness for claim C6 at a one-row table. -/
theorem save_load_roundtrip_row_witness :
    ∃ t2, load_table (save_table [("a", infoA)]) = some t2 ∧
      tableLookup t2 "a" = some infoA :=
  save_load_roundtrip_row [("a", infoA)] "a" infoA (by rfl)

theorem tableKeys_register (t : Table) (instance_id : String)
    (info : solving_info) :
    tableKeys (register_instance_info t instance_id info) =
      if instance_id ∈ tableKeys t then tableKeys t
      else tableKeys t ++ [instance_id] := by
  unfold register_instance_info tableKeys
  by_cases h : instance_id ∈ t.map Prod.fst
  · have hany : t.any (fun p => p.1 == instance_id) = true := by
      simp only [List.any_eq_true]
      obtain ⟨p, hp, hfst⟩ := List.mem_map.mp h
      exact ⟨p, hp, by simp [hfst]⟩
    simp only [hany, if_pos, List.map_map, h, if_true]
    apply List.map_congr_left
    intro p _
    by_cases hp : p.1 = instance_id
    · simp [hp]
    · simp [hp]
  · have hany : t.any (fun p => p.1 == instance_id) = false := by
      simp only [List.any_eq_false]
      intro p hp
      simp only [beq_iff_eq]
      intro hfst
      exact h (List.mem_map.mpr ⟨p, hp, hfst⟩)
    simp [hany, h]

theorem count_tableKeys_register (t : Table) (instance_id s : String)
    (info : solving_info) (h : (tableKeys t).count s ≤ 1) :
    (tableKeys (register_instance_info t instance_id info)).count s ≤ 1 := by
  rw [tableKeys_register]
  by_cases hmem : instance_id ∈ tableKeys t
  · simp [hmem, h]
  · simp only [hmem, if_false]
    rw [List.count_append]
    by_cases hs : s = instance_id
    · subst hs
      have : (tableKeys t).count s = 0 := List.count_eq_zero.mpr hmem
      simp [this, List.count_singleton]
    · have : ([instance_id].count s) = 0 := by
        simp [List.count_singleton, hs]
      omega

/-- Apply a sequence of `register_instance_info` calls to the empty table. -/
def applyRegisters (calls : List (String × solving_info)) : Table :=
  calls.foldl (fun t c => register_instance_info t c.1 c.2) create_table

theorem applyRegisters_count (calls : List (String × solving_info))
    (s : String) : (tableKeys (applyRegisters calls)).count s ≤ 1 := by
  unfold applyRegisters
  have key : ∀ (cs : List (String × solving_info)) (t : Table),
      (tableKeys t).count s ≤ 1 →
      (tableKeys (cs.foldl (fun t c => register_instance_info t c.1 c.2) t)).count s ≤ 1 := by
    intro cs
    induction cs with
    | nil => intro t h; exact h
    | cons c rest ih =>
        intro t h
        exact ih _ (count_tableKeys_register t c.1 s c.2 h)
  exact key calls create_table (by simp [create_table, tableKeys])

/-- Claim C9: after any sequence of `register_instance_info` calls the table
has at most one row per identifier, and registering an identifier that
already has a row rewrites it in place (row keys unchanged, no append). -/
theorem register_instance_info_at_most_one_row :
    (∀ (calls : List (String × solving_info)) (s : String),
      (tableKeys (applyRegisters calls)).count s ≤ 1) ∧
    (∀ (t : Table) (instance_id : String) (info : solving_info),
      instance_id ∈ tableKeys t →
        tableKeys (register_instance_info t instance_id info) = tableKeys t) := by
  constructor
  · exact applyRegisters_count
  · intro t instance_id info h
    rw [tableKeys_register]
    simp [h]

/-- Witness for claim C9: registering "a" twice leaves a single "a" row and
re-registering an existing key keeps the index unchanged. -/
theorem register_instance_info_at_most_one_row_witness :
    (tableKeys (applyRegisters [("a", infoA), ("a", infoA)])).count "a" ≤ 1 ∧
    tableKeys (register_instance_info [("a", infoA)] "a" infoA) =
      tableKeys [("a", infoA)] :=
  ⟨register_instance_info_at_most_one_row.1 [("a", infoA), ("a", infoA)] "a",
   register_instance_info_at_most_one_row.2 [("a", infoA)] "a" infoA (by simp [tableKeys])⟩

/-- Python exceptions observable in the embedded code. -/
inductive PyErr where
  | typeError
  | keyError
  | fileExistsError
  | fileNotFoundError
deriving DecidableEq, Repr

/-- Result of running the batch loop of `solve_instances` (`solving.py`,
manager-dict version): the final in-memory table (always equal to the last
saved file contents, since the action saves after every append), the
identifiers for which a worker subprocess was started, the final contents of
the shared `return_dict`, and the first uncaught exception if any. -/
structure OrchResult where
  table : Table
  attempts : List String
  return_dict : Option solving_info
  error : Option PyErr
deriving DecidableEq, Repr

/-- The loop body of `solve_instances` (`solving.py`).  The external solver
run inside the worker subprocess is abstracted by `outcome`: `some info`
means `solve_model` completed and the worker stored `info` in
`return_dict['info']`; `none` means the worker process died (crash, memory
limit) without writing.  The parent then reads `return_dict['info']`
unconditionally — a `KeyError` if the dict never got the key, otherwise
whatever value the dict currently holds — and applies the action
(`register_into_table` followed by `save_table` in
`solve_instances_write_table`). -/
def solve_instances_loop (outcome : String → Option solving_info) :
    List String → Option solving_info → Table → OrchResult
  | [], rd, t => ⟨t, [], rd, none⟩
  | instance_id :: rest, rd, t =>
      match outcome instance_id, rd with
      | some info, _ =>
          let r := solve_instances_loop outcome rest (some info)
                     (register_instance_info t instance_id info)
          ⟨r.table, instance_id :: r.attempts, r.return_dict, r.error⟩
      | none, none => ⟨t, [instance_id], none, some PyErr.keyError⟩
      | none, some stale =>
          let r := solve_instances_loop outcome rest (some stale)
                     (register_instance_info t instance_id stale)
          ⟨r.table, instance_id :: r.attempts, r.return_dict, r.error⟩

/-- `solve_instances` (`solving.py`): fresh manager dict (initially without
the `'info'` key), then the sequential per-identifier loop. -/
def solve_instances (instance_ids : List String)
    (outcome : String → Option solving_info) (t : Table) : OrchResult :=
  solve_instances_loop outcome instance_ids none t

/-- The `unsolved` predicate of `solve_instances_write_table`:
`instance_id not in table.index`. -/
def unsolved (table : Table) (instance_id : String) : Bool :=
  !(table.any fun p => p.1 == instance_id)

/-- `solve_instances_write_table` (`solving.py`): load the stored table (or
create an empty one), filter the identifier list down to those not already
present as rows, and run `solve_instances` with the register-and-save
action. -/
def solve_instances_write_table (instance_ids : List String)
    (outcome : String → Option solving_info) (stored : Option Table) :
    OrchResult :=
  let table := match stored with
               | some t => t
               | none => create_table
  let unsolved_instance_ids := instance_ids.filter (unsolved table)
  solve_instances unsolved_instance_ids outcome table

/-- Worker outcomes for the C1 failing input: instance "a" solves normally,
the worker for instance "b" is killed. -/
def outcomeAB : String → Option solving_info :=
  fun instance_id => if instance_id == "a" then some infoA else none

/-- Claim C1 (failing run): the crashed worker for "b" does not leave the
table without a row for "b" — the parent re-reads the stale
`return_dict['info']` left by "a" and appends it under "b", so "b" gets a
(wrong) row and is no longer eligible for retry; and when the very first
worker crashes, the parent raises `KeyError` and the batch aborts instead of
continuing. -/
theorem solve_instances_crash_records_stale_row :
    (solve_instances ["a", "b"] outcomeAB create_table).table =
      [("a", infoA), ("b", infoA)] ∧
    tableLookup (solve_instances ["a", "b"] outcomeAB create_table).table "b" =
      some infoA ∧
    (solve_instances ["a"] (fun _ => none) create_table).error =
      some PyErr.keyError := by
  refine ⟨rfl, rfl, rfl⟩

theorem unsolved_eq_false_iff (t : Table) (instance_id : String) :
    unsolved t instance_id = false ↔ instance_id ∈ tableKeys t := by
  simp only [unsolved, Bool.not_eq_false', List.any_eq_true, beq_iff_eq,
    tableKeys, List.mem_map]

theorem mem_tableKeys_register_self (t : Table) (instance_id : String)
    (info : solving_info) :
    instance_id ∈ tableKeys (register_instance_info t instance_id info) := by
  rw [tableKeys_register]
  by_cases h : instance_id ∈ tableKeys t <;> simp [h]

theorem mem_tableKeys_register_of_mem (t : Table) (instance_id s : String)
    (info : solving_info) (h : s ∈ tableKeys t) :
    s ∈ tableKeys (register_instance_info t instance_id info) := by
  rw [tableKeys_register]
  by_cases h2 : instance_id ∈ tableKeys t <;> simp [h2, h]

theorem solve_instances_loop_attempts
    (outcome : String → Option solving_info) :
    ∀ (instance_ids : List String) (rd : Option solving_info) (t : Table),
      (∀ s ∈ instance_ids, (outcome s).isSome) →
      (solve_instances_loop outcome instance_ids rd t).attempts =
        instance_ids := by
  intro ids
  induction ids with
  | nil => intro rd t _; rfl
  | cons instance_id rest ih =>
      intro rd t h
      have h1 : (outcome instance_id).isSome := h _ (List.mem_cons_self _ _)
      obtain ⟨info, hinfo⟩ := Option.isSome_iff_exists.mp h1
      have hrest : ∀ s ∈ rest, (outcome s).isSome :=
        fun s hs => h s (List.mem_cons_of_mem _ hs)
      simp [solve_instances_loop, hinfo, ih _ _ hrest]

theorem solve_instances_loop_mem_table
    (outcome : String → Option solving_info) :
    ∀ (instance_ids : List String) (rd : Option solving_info) (t : Table)
      (s : String),
      (∀ s2 ∈ instance_ids, (outcome s2).isSome) →
      (s ∈ tableKeys t ∨ s ∈ instance_ids) →
      s ∈ tableKeys (solve_instances_loop outcome instance_ids rd t).table := by
  intro ids
  induction ids with
  | nil =>
      intro rd t s _ hmem
      rcases hmem with h | h
      · exact h
      · cases h
  | cons instance_id rest ih =>
      intro rd t s h hmem
      have h1 : (outcome instance_id).isSome := h _ (List.mem_cons_self _ _)
      obtain ⟨info, hinfo⟩ := Option.isSome_iff_exists.mp h1
      have hrest : ∀ s2 ∈ rest, (outcome s2).isSome :=
        fun s2 hs => h s2 (List.mem_cons_of_mem _ hs)
      simp only [solve_instances_loop, hinfo]
      apply ih _ _ _ hrest
      rcases hmem with hk | hl
      · exact Or.inl (mem_tableKeys_register_of_mem _ _ _ _ hk)
      · rcases List.mem_cons.mp hl with hh | ht
        · subst hh
          exact Or.inl (mem_tableKeys_register_self _ _ _)
        · exact Or.inr ht

theorem solve_instances_loop_count
    (outcome : String → Option solving_info) :
    ∀ (instance_ids : List String) (rd : Option solving_info) (t : Table)
      (s : String),
      (tableKeys t).count s ≤ 1 →
      (tableKeys (solve_instances_loop outcome instance_ids rd t).table).count s
        ≤ 1 := by
  intro ids
  induction ids with
  | nil => intro rd t s h; exact h
  | cons instance_id rest ih =>
      intro rd t s h
      cases hinfo : outcome instance_id with
      | some info =>
          simp only [solve_instances_loop, hinfo]
          exact ih _ _ _ (count_tableKeys_register _ _ _ _ h)
      | none =>
          cases rd with
          | none => simpa [solve_instances_loop, hinfo] using h
          | some stale =>
              simp only [solve_instances_loop, hinfo]
              exact ih _ _ _ (count_tableKeys_register _ _ _ _ h)

/-- Counterexample to claim C2 as stated: on the identifier list
`["a", "a"]` against an empty table, instance "a" is solved twice in a
single run — the already-present filter runs only once, up front — so "a"
is not processed exactly once across the lifetime of the table. -/
theorem write_table_duplicate_ids_resolved_twice :
    (solve_instances_write_table ["a", "a"] (fun _ => some infoA)
        none).attempts.count "a" = 2 ∧
    ¬ (solve_instances_write_table ["a", "a"] (fun _ => some infoA)
        none).attempts.count "a" ≤ 1 := by
  refine ⟨rfl, by decide⟩

/-- Claim C2 (amended): provided the identifier list has no duplicate
entries and every worker run completes successfully, a run of
`solve_instances_write_table` never solves an identifier already present as
a row of the existing table, solves each listed identifier at most once,
leaves at most one row per identifier, and a second run over the same list
against the resulting table solves nothing and leaves the table
unchanged. -/
theorem write_table_idempotent_nodup
    (instance_ids : List String) (outcome : String → Option solving_info)
    (t0 : Table) (hnd : instance_ids.Nodup)
    (hsucc : ∀ s ∈ instance_ids, (outcome s).isSome)
    (ht0 : ∀ s, (tableKeys t0).count s ≤ 1) :
    (∀ s, unsolved t0 s = false →
      s ∉ (solve_instances_write_table instance_ids outcome (some t0)).attempts) ∧
    (∀ s, (solve_instances_write_table instance_ids outcome
        (some t0)).attempts.count s ≤ 1) ∧
    (∀ s, (tableKeys (solve_instances_write_table instance_ids outcome
        (some t0)).table).count s ≤ 1) ∧
    (solve_instances_write_table instance_ids outcome
      (some (solve_instances_write_table instance_ids outcome
        (some t0)).table)).attempts = [] ∧
    (solve_instances_write_table instance_ids outcome
      (some (solve_instances_write_table instance_ids outcome
        (some t0)).table)).table =
      (solve_instances_write_table instance_ids outcome (some t0)).table := by
  have hfsucc : ∀ s ∈ instance_ids.filter (unsolved t0), (outcome s).isSome :=
    fun s hs => hsucc s (List.mem_of_mem_filter hs)
  have hatt :
      (solve_instances_write_table instance_ids outcome (some t0)).attempts =
        instance_ids.filter (unsolved t0) :=
    solve_instances_loop_attempts outcome _ none t0 hfsucc
  have hall : ∀ s ∈ instance_ids,
      s ∈ tableKeys (solve_instances_write_table instance_ids outcome
        (some t0)).table := by
    intro s hs
    apply solve_instances_loop_mem_table outcome _ none t0 s hfsucc
    by_cases hu : unsolved t0 s
    · exact Or.inr (List.mem_filter.mpr ⟨hs, hu⟩)
    · exact Or.inl ((unsolved_eq_false_iff t0 s).mp (Bool.eq_false_iff.mpr hu))
  have hfilter2 :
      instance_ids.filter
        (unsolved (solve_instances_write_table instance_ids outcome
          (some t0)).table) = [] := by
    rw [List.filter_eq_nil_iff]
    intro s hs
    have := (unsolved_eq_false_iff _ s).mpr (hall s hs)
    simp [this]
  refine ⟨?_, ?_, ?_, ?_, ?_⟩
  · intro s hu
    rw [hatt]
    intro hmem
    have := (List.mem_filter.mp hmem).2
    rw [hu] at this
    cases this
  · intro s
    rw [hatt]
    exact List.nodup_iff_count_le_one.mp (hnd.filter _) s
  · intro s
    exact solve_instances_loop_count outcome _ none t0 s (ht0 s)
  · show (solve_instances_loop outcome
        (instance_ids.filter (unsolved _)) none _).attempts = []
    rw [hfilter2]
    rfl
  · show (solve_instances_loop outcome
        (instance_ids.filter (unsolved _)) none _).table = _
    rw [hfilter2]
    rfl

/-- Witness for the amended claim C2 at the list `["a", "b"]` against a
one-row table for "c". -/
theorem write_table_idempotent_nodup_witness :
    "c" ∉ (solve_instances_write_table ["a", "b"] (fun _ => some infoA)
      (some [("c", infoA)])).attempts ∧
    (solve_instances_write_table ["a", "b"] (fun _ => some infoA)
      (some [("c", infoA)])).attempts.count "a" ≤ 1 ∧
    (tableKeys (solve_instances_write_table ["a", "b"] (fun _ => some infoA)
      (some [("c", infoA)])).table).count "a" ≤ 1 ∧
    (solve_instances_write_table ["a", "b"] (fun _ => some infoA)
      (some (solve_instances_write_table ["a", "b"] (fun _ => some infoA)
        (some [("c", infoA)])).table)).attempts = [] := by
  have h := write_table_idempotent_nodup ["a", "b"] (fun _ => some infoA)
    [("c", infoA)] (by decide) (fun s _ => rfl)
    (fun s => List.nodup_iff_count_le_one.mp (by decide) s)
  exact ⟨h.1 "c" (by rfl), h.2.1 "a", h.2.2.1 "a", h.2.2.2.1⟩

/-- A filesystem, as the set of existing paths; paths are taken verbatim as
the Python code builds them (relative paths are relative to the process's
working directory). -/
abbrev FileSys : Type := List String

/-- `os.mkdir`: raises `FileExistsError` on an existing path, otherwise
creates the directory. -/
def mkdirFS (fs : FileSys) (path : String) : FileSys × Option PyErr :=
  if fs.contains path then (fs, some PyErr.fileExistsError)
  else (fs ++ [path], none)

/-- The output-directory step of `solve_instances_directory` (`solving.py`
lines 166-167): `if not exists(output_dir): mkdir(directory + "/" +
output_dir)` — note the existence check is on the bare `output_dir` name
(relative to the working directory), while the creation targets the path
under `directory`. -/
def ensure_output_dir (fs : FileSys) (directory output_dir : String) :
    FileSys × Option PyErr :=
  if fs.contains output_dir then (fs, none)
  else mkdirFS fs (directory ++ "/" ++ output_dir)

/-- Writing a file under a parent directory: `FileNotFoundError` when the
parent directory is missing (the first `save_table` write of
`results.csv`, and the solution/log writes, live under
`directory/output_dir`). -/
def write_under_dir (fs : FileSys) (parent : String) : Option PyErr :=
  if fs.contains parent then none else some PyErr.fileNotFoundError

/-- The directory preparation of `solve_instances_directory` followed by the
first write of the results table under `directory/output_dir`. -/
def prepare_and_first_write (fs : FileSys) (directory output_dir : String) :
    Option PyErr :=
  match ensure_output_dir fs directory output_dir with
  | (_, some e) => some e
  | (fs2, none) => write_under_dir fs2 (directory ++ "/" ++ output_dir)

/-- Claim C8 (failing run): with an unrelated entry named "solving" in the
working directory and `generator1/solving` missing, the existence check on
the bare name succeeds, `mkdir` is skipped, the missing output directory is
never created, and the first write fails with `FileNotFoundError`. -/
theorem output_dir_check_wrong_path :
    (["solving"] : FileSys).contains ("generator1" ++ "/" ++ "solving") = false ∧
    (ensure_output_dir ["solving"] "generator1" "solving").1 = ["solving"] ∧
    prepare_and_first_write ["solving"] "generator1" "solving" =
      some PyErr.fileNotFoundError := by
  refine ⟨rfl, rfl, rfl⟩

/-- A Sage undirected weighted graph at the interface `create_model`
consumes: vertices are `0 .. num_verts - 1`; `edges` lists each edge once,
endpoint-normalized the way Sage's edge iterator reports it, with its
integer weight. -/
structure SGraph where
  num_verts : Nat
  edges : List (Nat × Nat × Int)
deriving DecidableEq, Repr

/-- `g.vertex_iterator()`: the vertices in order. -/
def vertexList (g : SGraph) : List Nat := List.range g.num_verts

/-- `g.edge_iterator(labels=False)`: the edges as endpoint pairs. -/
def edgePairs (g : SGraph) : List (Nat × Nat) :=
  g.edges.map fun e => (e.1, e.2.1)

/-- Adjacency in `g` (either orientation of a stored edge). -/
def adjacent (g : SGraph) (u v : Nat) : Bool :=
  g.edges.any fun e => (e.1 == u && e.2.1 == v) || (e.1 == v && e.2.1 == u)

/-- `g.neighbor_iterator(v)`: the neighbors of `v`. -/
def neighbor_list (g : SGraph) (v : Nat) : List Nat :=
  (vertexList g).filter fun u => adjacent g u v

/-- Vertices at hop distance at most `k` from `root` (BFS layers). -/
def ball (g : SGraph) (root : Nat) : Nat → List Nat
  | 0 => [root]
  | k + 1 =>
      let b := ball g root k
      b ++ (vertexList g).filter fun v =>
        !b.contains v && b.any fun u => adjacent g u v

/-- `g.distance(root, v)`: unweighted shortest-path (hop) distance;
`none` models Sage's `+Infinity` for an unreachable vertex. -/
def distance (g : SGraph) (root v : Nat) : Option Nat :=
  (List.range (g.num_verts + 1)).find? fun k => (ball g root k).contains v

/-- A Sage directed graph at the interface `create_model` consumes. -/
structure SDiGraph where
  num_verts : Nat
  arcs : List (Nat × Nat)
deriving DecidableEq, Repr

/-- `d.neighbor_in_iterator(v)`: sources of arcs into `v`. -/
def neighbor_in_list (d : SDiGraph) (v : Nat) : List Nat :=
  (d.arcs.filter fun a => a.2 == v).map Prod.fst

/-- `d.in_degree(v)`. -/
def in_degree (d : SDiGraph) (v : Nat) : Nat :=
  (neighbor_in_list d v).length

/-- The problem instance (`instance` in `model.py`; that word is reserved
in Lean).  The dependency-bound dicts are association lists keyed by edge
pairs. -/
structure Instance where
  graph : SGraph
  root : Nat
  digraph : SDiGraph
  lb_dep : List ((Nat × Nat) × Int)
  ub_dep : List ((Nat × Nat) × Int)
deriving DecidableEq, Repr

/-- Python dict lookup `m[k]`; `none` models a `KeyError`. -/
def dictGet (m : List ((Nat × Nat) × Int)) (k : Nat × Nat) : Option Int :=
  (m.find? fun p => p.1 == k).map Prod.snd

/-- Decision-variable keys of the model: `x_u_v` per edge, `y_u_v` and
`y_v_u` per edge, continuous `l_v` per vertex. -/
inductive VK where
  | x : Nat → Nat → VK
  | y : Nat → Nat → VK
  | l : Nat → VK
deriving DecidableEq, Repr

/-- A linear expression: integer-coefficient terms plus an integer
constant. -/
structure LinExpr where
  terms : List (Int × VK)
  const : Int
deriving DecidableEq, Repr

/-- A linear constraint as `docplex` receives it. -/
inductive Constr where
  | ceq : LinExpr → LinExpr → Constr
  | cle : LinExpr → LinExpr → Constr
  | cge : LinExpr → LinExpr → Constr
deriving DecidableEq, Repr

/-- Value of a linear expression under an assignment. -/
def evalExpr (a : VK → Rat) (e : LinExpr) : Rat :=
  (e.terms.map fun t => (t.1 : Rat) * a t.2).sum + (e.const : Rat)

/-- Satisfaction of one constraint. -/
def satC (a : VK → Rat) : Constr → Prop
  | Constr.ceq e1 e2 => evalExpr a e1 = evalExpr a e2
  | Constr.cle e1 e2 => evalExpr a e1 ≤ evalExpr a e2
  | Constr.cge e1 e2 => evalExpr a e1 ≥ evalExpr a e2

instance (a : VK → Rat) (c : Constr) : Decidable (satC a c) := by
  cases c <;> dsimp [satC] <;> infer_instance

/-- The `docplex` model object as `create_model` populates it: created
variables (with bounds for the continuous level variables; `none` as a
lower bound models Sage's `+Infinity` for an unreachable vertex), the
constraints added so far, and the objective once `minimize` is reached. -/
structure MilpModel where
  xVars : List (Nat × Nat)
  yVars : List (Nat × Nat)
  lVars : List (Nat × Option Int × Int)
  constraints : List Constr
  objective : Option LinExpr
deriving DecidableEq, Repr

/-- `y` dict keys in creation order: `y_u_v` then `y_v_u` per edge. -/
def yVarPairs (g : SGraph) : List (Nat × Nat) :=
  (edgePairs g).flatMap fun e => [(e.1, e.2), (e.2, e.1)]

/-- The `l` variables: `continuous_var(lb=g.distance(root, v) + 1, ub=n)`
for each vertex. -/
def lVarTriples (inst : Instance) : List (Nat × Option Int × Int) :=
  (vertexList inst.graph).map fun v =>
    (v, Option.map (fun dd : Nat => (dd : Int) + 1)
          (distance inst.graph inst.root v),
     (inst.graph.num_verts : Int))

/-- The constant expression. -/
def constExpr (c : Int) : LinExpr := ⟨[], c⟩

/-- `x_uv == y_uv + y_vu` for each edge (`model.py` lines 54-55). -/
def xy_constraints (g : SGraph) : List Constr :=
  (edgePairs g).map fun e =>
    Constr.ceq ⟨[(1, VK.x e.1 e.2)], 0⟩
      ⟨[(1, VK.y e.1 e.2), (1, VK.y e.2 e.1)], 0⟩

/-- `sum(y.values()) == n - 1` (`model.py` line 58). -/
def total_y_constraint (g : SGraph) : Constr :=
  Constr.ceq ⟨(yVarPairs g).map fun e => (1, VK.y e.1 e.2), 0⟩
    (constExpr ((g.num_verts : Int) - 1))

/-- `sum(y[u, v] for u in neighbors(v)) == 1` for each non-root vertex
(`model.py` lines 61-63). -/
def inbound_constraints (g : SGraph) (root : Nat) : List Constr :=
  ((vertexList g).filter fun v => v != root).map fun v =>
    Constr.ceq ⟨(neighbor_list g v).map fun u => (1, VK.y u v), 0⟩
      (constExpr 1)

/-- `sum(y[u, root] for u in neighbors(root)) == 0` (`model.py` line 66). -/
def root_inbound_constraint (g : SGraph) (root : Nat) : Constr :=
  Constr.ceq ⟨(neighbor_list g root).map fun u => (1, VK.y u root), 0⟩
    (constExpr 0)

/-- `l[root] == 1` (`model.py` line 69). -/
def l_root_constraint (root : Nat) : Constr :=
  Constr.ceq ⟨[(1, VK.l root)], 0⟩ (constExpr 1)

/-- All constraints added before the level-ordering loop, in program
order. -/
def base_constraints (inst : Instance) : List Constr :=
  xy_constraints inst.graph ++ [total_y_constraint inst.graph] ++
    inbound_constraints inst.graph inst.root ++
    [root_inbound_constraint inst.graph inst.root,
     l_root_constraint inst.root]

/-- The level-ordering loop (`model.py` lines 72-76).  The source reads
`model.add_constraint(l[u] - l[v] + 1 <= (n - g.distance(root, v))(1 - y[u, v]))`:
the parenthesized big-M coefficient is an integer and the juxtaposition is
a Python *call* of that integer, so each guarded branch raises `TypeError`
instead of adding a constraint; the loop therefore adds nothing and raises
at the first edge with an endpoint distinct from the root. -/
def level_loop (root : Nat) : List (Nat × Nat) → List Constr × Option PyErr
  | [] => ([], none)
  | e :: rest =>
      if e.2 != root then ([], some PyErr.typeError)
      else if e.1 != root then ([], some PyErr.typeError)
      else level_loop root rest

/-- `e_to_index` (`model.py` lines 29-33): edge pair to enumeration
index. -/
def e_to_index (g : SGraph) (e : Nat × Nat) : Option Nat :=
  ((edgePairs g).enum.find? fun p => p.2 == e).map Prod.fst

/-- `index_to_e` (`model.py` lines 29-33): enumeration index back to edge
pair; a missing index models the `KeyError` raised when a digraph vertex
has no corresponding edge. -/
def index_to_e (g : SGraph) (idx : Nat) : Option (Nat × Nat) :=
  (edgePairs g).get? idx

/-- `sum(x[index_to_e[i]] for i in d.neighbor_in_iterator(idx))`; fails when
`index_to_e` lacks one of the in-neighbor indices. -/
def dep_sum_expr (inst : Instance) (idx : Nat) : Option LinExpr := do
  let deps ← (neighbor_in_list inst.digraph idx).mapM
    fun i => index_to_e inst.graph i
  return ⟨deps.map fun e => (1, VK.x e.1 e.2), 0⟩

/-- The dependency loop (`model.py` lines 79-88): for each edge, the big-M
pair `sum(deps) >= lb_dep[e] * x_e` and
`sum(deps) <= num_deps - (num_deps - ub_dep[e]) * x_e`, with a `KeyError`
at the first missing dict key, in evaluation order. -/
def dep_loop (inst : Instance) : List (Nat × Nat) → List Constr × Option PyErr
  | [] => ([], none)
  | e :: rest =>
      let idx := (e_to_index inst.graph e).getD 0
      match dep_sum_expr inst idx with
      | none => ([], some PyErr.keyError)
      | some sumExpr =>
          match dictGet inst.lb_dep e with
          | none => ([], some PyErr.keyError)
          | some lb =>
              let c1 := Constr.cge sumExpr ⟨[(lb, VK.x e.1 e.2)], 0⟩
              let num_deps : Int := (in_degree inst.digraph idx : Int)
              match dictGet inst.ub_dep e with
              | none => ([c1], some PyErr.keyError)
              | some ub =>
                  let c2 := Constr.cle sumExpr
                    ⟨[(-(num_deps - ub), VK.x e.1 e.2)], num_deps⟩
                  let r := dep_loop inst rest
                  (c1 :: c2 :: r.1, r.2)

/-- The objective `sum(w * x[u, v] for (u, v, w) in g.edge_iterator())`
(`model.py` line 92). -/
def objective_expr (g : SGraph) : LinExpr :=
  ⟨g.edges.map fun e => (e.2.2, VK.x e.1 e.2.1), 0⟩

/-- `create_model` (`model.py`), with explicit error propagation: the pair
is the model object as populated when the function returns or when the
uncaught exception leaves it, together with that exception if any. -/
def create_model (inst : Instance) : MilpModel × Option PyErr :=
  match level_loop inst.root (edgePairs inst.graph) with
  | (lc, some e) =>
      ({ xVars := edgePairs inst.graph, yVars := yVarPairs inst.graph,
         lVars := lVarTriples inst,
         constraints := base_constraints inst ++ lc,
         objective := none }, some e)
  | (lc, none) =>
      match dep_loop inst (edgePairs inst.graph) with
      | (dc, some e) =>
          ({ xVars := edgePairs inst.graph, yVars := yVarPairs inst.graph,
             lVars := lVarTriples inst,
             constraints := base_constraints inst ++ lc ++ dc,
             objective := none }, some e)
      | (dc, none) =>
          ({ xVars := edgePairs inst.graph, yVars := yVarPairs inst.graph,
             lVars := lVarTriples inst,
             constraints := base_constraints inst ++ lc ++ dc,
             objective := some (objective_expr inst.graph) }, none)

/-- Well-formed instance: root in range, edges endpoint-normalized and in
range, no repeated edge. -/
def WFInstance (inst : Instance) : Prop :=
  inst.root < inst.graph.num_verts ∧
  (∀ e ∈ inst.graph.edges, e.1 < e.2.1 ∧ e.2.1 < inst.graph.num_verts) ∧
  (edgePairs inst.graph).Nodup

instance (inst : Instance) : Decidable (WFInstance inst) := by
  unfold WFInstance
  infer_instance

/-- A two-vertex instance with the single edge `(0, 1)`, root 0, an empty
dependency digraph on the edge, and dependency bounds `0 <= deps <= 0` for
the edge: as well-formed as instances get. -/
def instK2 : Instance :=
  { graph := { num_verts := 2, edges := [(0, 1, 5)] },
    root := 0,
    digraph := { num_verts := 1, arcs := [] },
    lb_dep := [((0, 1), 0)],
    ub_dep := [((0, 1), 0)] }

/-- Claim C3 (failing run): on the well-formed two-vertex instance,
`create_model` raises `TypeError` at the level-ordering loop — the big-M
coefficient `(n - g.distance(root, v))` is *called* instead of multiplied —
so no solver-ready model is returned (the objective is never set). -/
theorem create_model_raises_on_K2 :
    WFInstance instK2 ∧
    (create_model instK2).2 = some PyErr.typeError ∧
    (create_model instK2).1.objective = none := by
  refine ⟨by decide, rfl, rfl⟩

/-- Claim C5 (failing run): `create_model` never reaches the dependency
loop on a graph with an edge — it raises `TypeError` in the preceding
level-ordering loop — so no inequality constraint (in particular neither
element of the big-M dependency pair for edge `(0, 1)`) is ever added. -/
theorem create_model_dep_constraints_never_added :
    (create_model instK2).2 = some PyErr.typeError ∧
    ((create_model instK2).1.constraints.all fun c =>
      match c with
      | Constr.ceq _ _ => true
      | Constr.cle _ _ => false
      | Constr.cge _ _ => false) = true := by
  refine ⟨rfl, by decide⟩

/-- The dependency loop itself, had it been reached, raises `KeyError` on a
bounds dict keyed by the reversed edge pair — the behavior claim C10
describes. -/
theorem dep_loop_missing_key_raises :
    dep_loop { instK2 with lb_dep := [((1, 0), 0)], ub_dep := [((1, 0), 0)] }
      [(0, 1)] = ([], some PyErr.keyError) := by
  rfl

/-- The instance whose bounds file listed the edge with reversed
endpoints: the dicts are keyed by `(1, 0)` while the edge iterator yields
`(0, 1)`. -/
def instRevBounds : Instance :=
  { instK2 with lb_dep := [((1, 0), 0)], ub_dep := [((1, 0), 0)] }

/-- Claim C10 (failing run): with the bounds keyed by the reversed pair,
the required key `(0, 1)` is indeed absent, but `create_model` raises
`TypeError` in the earlier level-ordering loop and never reaches the
dependency lookups, so no `KeyError` is raised. -/
theorem create_model_missing_bounds_no_keyerror :
    dictGet instRevBounds.lb_dep (0, 1) = none ∧
    (create_model instRevBounds).2 = some PyErr.typeError ∧
    (create_model instRevBounds).2 ≠ some PyErr.keyError := by
  refine ⟨rfl, rfl, by decide⟩

theorem create_model_yVars (inst : Instance) :
    (create_model inst).1.yVars = yVarPairs inst.graph := by
  unfold create_model
  split
  · rfl
  · split <;> rfl

theorem create_model_lVars (inst : Instance) :
    (create_model inst).1.lVars = lVarTriples inst := by
  unfold create_model
  split
  · rfl
  · split <;> rfl

theorem base_constraints_mem (inst : Instance) (c : Constr)
    (h : c ∈ base_constraints inst) :
    c ∈ (create_model inst).1.constraints := by
  unfold create_model
  split
  · exact List.mem_append_left _ h
  · split
    · exact List.mem_append_left _ (List.mem_append_left _ h)
    · exact List.mem_append_left _ (List.mem_append_left _ h)

/-- Lower-bound satisfaction for one continuous level variable; a `none`
bound (Sage's `+Infinity`) admits no value. -/
def lb_ok (a : VK → Rat) (t : Nat × Option Int × Int) : Prop :=
  match t.2.1 with
  | none => False
  | some lb => (lb : Rat) ≤ a (VK.l t.1)

instance (a : VK → Rat) (t : Nat × Option Int × Int) :
    Decidable (lb_ok a t) := by
  unfold lb_ok
  rcases t with ⟨v, lb, ub⟩
  cases lb <;> dsimp <;> infer_instance

/-- Variable-domain feasibility: the binary variables take 0/1 values, the
continuous level variables respect their declared bounds. -/
def binBounds (a : VK → Rat) (m : MilpModel) : Prop :=
  (∀ e ∈ m.xVars, a (VK.x e.1 e.2) = 0 ∨ a (VK.x e.1 e.2) = 1) ∧
  (∀ e ∈ m.yVars, a (VK.y e.1 e.2) = 0 ∨ a (VK.y e.1 e.2) = 1) ∧
  (∀ t ∈ m.lVars, lb_ok a t ∧ a (VK.l t.1) ≤ (t.2.2 : Rat))

/-- A feasible solution of the model: variable domains plus every added
constraint. -/
def feasible (a : VK → Rat) (m : MilpModel) : Prop :=
  binBounds a m ∧ ∀ c ∈ m.constraints, satC a c

instance (a : VK → Rat) (m : MilpModel) : Decidable (binBounds a m) := by
  unfold binBounds
  infer_instance

instance (a : VK → Rat) (m : MilpModel) : Decidable (feasible a m) := by
  unfold feasible
  infer_instance

theorem evalExpr_ones {α : Type} (a : VK → Rat) (L : List α) (f : α → VK) :
    evalExpr a ⟨L.map fun b => (1, f b), 0⟩ = (L.map fun b => a (f b)).sum := by
  unfold evalExpr
  rw [List.map_map]
  have hfun : ((fun t : Int × VK => (t.1 : Rat) * a t.2) ∘ fun b => (1, f b)) =
      fun b => a (f b) := by
    funext b
    simp
  rw [hfun]
  simp

theorem evalExpr_const (a : VK → Rat) (c : Int) :
    evalExpr a (constExpr c) = (c : Rat) := by
  simp [evalExpr, constExpr]

theorem sum_eq_countP {α : Type} (f : α → Rat) (L : List α)
    (h : ∀ b ∈ L, f b = 0 ∨ f b = 1) :
    (L.map f).sum = ((L.countP fun b => decide (f b = 1)) : Rat) := by
  induction L with
  | nil => simp
  | cons b rest ih =>
      have hb := h b (List.mem_cons_self _ _)
      have hrest : ∀ b2 ∈ rest, f b2 = 0 ∨ f b2 = 1 :=
        fun b2 hb2 => h b2 (List.mem_cons_of_mem _ hb2)
      rw [List.map_cons, List.sum_cons, List.countP_cons, ih hrest]
      rcases hb with h0 | h1
      · have hdec : (decide (f b = 1)) = false := by
          rw [h0]; decide
        rw [hdec, h0]
        simp
      · have hdec : (decide (f b = 1)) = true := by
          rw [h1]; decide
        rw [hdec, h1]
        simp
        ring

theorem neighbor_mem_yVarPairs (g : SGraph) (u v : Nat)
    (h : u ∈ neighbor_list g v) : (u, v) ∈ yVarPairs g := by
  have hadj : adjacent g u v = true := (List.mem_filter.mp h).2
  unfold adjacent at hadj
  rw [List.any_eq_true] at hadj
  obtain ⟨e, he, hcond⟩ := hadj
  simp only [Bool.or_eq_true, Bool.and_eq_true, beq_iff_eq] at hcond
  unfold yVarPairs
  rw [List.mem_flatMap]
  refine ⟨(e.1, e.2.1), List.mem_map.mpr ⟨e, he, rfl⟩, ?_⟩
  rcases hcond with ⟨h1, h2⟩ | ⟨h1, h2⟩
  · subst h1; subst h2
    exact List.mem_cons_self _ _
  · subst h1; subst h2
    exact List.mem_cons_of_mem _ (List.mem_cons_self _ _)

theorem total_y_constraint_mem (inst : Instance) :
    total_y_constraint inst.graph ∈ (create_model inst).1.constraints := by
  apply base_constraints_mem
  simp [base_constraints]

theorem inbound_constraint_mem (inst : Instance) (v : Nat)
    (hv : v < inst.graph.num_verts) (hne : v ≠ inst.root) :
    Constr.ceq ⟨(neighbor_list inst.graph v).map fun u => (1, VK.y u v), 0⟩
      (constExpr 1) ∈ (create_model inst).1.constraints := by
  apply base_constraints_mem
  have hvmem : v ∈ (vertexList inst.graph).filter fun w => w != inst.root := by
    rw [List.mem_filter]
    constructor
    · simp [vertexList, List.mem_range, hv]
    · simp [hne]
  have : Constr.ceq
      ⟨(neighbor_list inst.graph v).map fun u => (1, VK.y u v), 0⟩
      (constExpr 1) ∈ inbound_constraints inst.graph inst.root :=
    List.mem_map.mpr ⟨v, hvmem, rfl⟩
  simp only [base_constraints, List.mem_append]
  tauto

theorem root_inbound_constraint_mem (inst : Instance) :
    root_inbound_constraint inst.graph inst.root ∈
      (create_model inst).1.constraints := by
  apply base_constraints_mem
  simp [base_constraints]

/-- Claim C7: for every vertex with finite distance from the root,
`create_model` creates its continuous level variable with lower bound
`distance + 1` and upper bound the vertex count, and adds the constraint
`l[root] == 1`.  These actions precede the raising level-ordering loop, so
they hold however `create_model` exits. -/
theorem create_model_level_var_bounds (inst : Instance) (v : Nat)
    (hv : v < inst.graph.num_verts) (d : Nat)
    (hd : distance inst.graph inst.root v = some d) :
    (v, some ((d : Int) + 1), (inst.graph.num_verts : Int)) ∈
      (create_model inst).1.lVars ∧
    l_root_constraint inst.root ∈ (create_model inst).1.constraints := by
  constructor
  · rw [create_model_lVars]
    unfold lVarTriples
    apply List.mem_map.mpr
    refine ⟨v, ?_, ?_⟩
    · simp [vertexList, List.mem_range, hv]
    · rw [hd]
      rfl
  · apply base_constraints_mem
    simp [base_constraints]

/-- Witness for claim C7 at the two-vertex instance, vertex 1 at distance
1 from the root. -/
theorem create_model_level_var_bounds_witness :
    (1, some ((1 : Int) + 1), (instK2.graph.num_verts : Int)) ∈
      (create_model instK2).1.lVars ∧
    l_root_constraint instK2.root ∈ (create_model instK2).1.constraints :=
  create_model_level_var_bounds instK2 1 (by decide) 1 (by decide)

/-- Claim C4: any assignment within the variable domains that satisfies the
constraints `create_model` adds has exactly `n - 1` selected arc indicators
in total, exactly one selected inbound arc indicator at each non-root
vertex, and none at the root.  The forcing constraints (`model.py` lines
54-66) are added before the raising level-ordering loop, so they constrain
the built model however `create_model` exits. -/
theorem create_model_forces_arborescence_degrees (inst : Instance)
    (a : VK → Rat) (hwf : WFInstance inst)
    (hfeas : feasible a (create_model inst).1) :
    ((yVarPairs inst.graph).countP fun e => decide (a (VK.y e.1 e.2) = 1)) =
      inst.graph.num_verts - 1 ∧
    (∀ v, v < inst.graph.num_verts → v ≠ inst.root →
      ((neighbor_list inst.graph v).countP
        fun u => decide (a (VK.y u v) = 1)) = 1) ∧
    ((neighbor_list inst.graph inst.root).countP
      fun u => decide (a (VK.y u inst.root) = 1)) = 0 := by
  have hy : ∀ e ∈ yVarPairs inst.graph,
      a (VK.y e.1 e.2) = 0 ∨ a (VK.y e.1 e.2) = 1 := by
    intro e he
    exact hfeas.1.2.1 e (by rw [create_model_yVars]; exact he)
  have hn : 0 < inst.graph.num_verts := Nat.lt_of_le_of_lt (Nat.zero_le _) hwf.1
  refine ⟨?_, ?_, ?_⟩
  · have hsat := hfeas.2 _ (total_y_constraint_mem inst)
    unfold total_y_constraint at hsat
    rw [show satC a (Constr.ceq
        ⟨(yVarPairs inst.graph).map fun e => (1, VK.y e.1 e.2), 0⟩
        (constExpr ((inst.graph.num_verts : Int) - 1))) =
        (evalExpr a ⟨(yVarPairs inst.graph).map fun e => (1, VK.y e.1 e.2), 0⟩ =
         evalExpr a (constExpr ((inst.graph.num_verts : Int) - 1))) from rfl]
      at hsat
    rw [evalExpr_ones, evalExpr_const,
      sum_eq_countP (fun e : Nat × Nat => a (VK.y e.1 e.2))
        (yVarPairs inst.graph) hy] at hsat
    have : (((yVarPairs inst.graph).countP
        fun e => decide (a (VK.y e.1 e.2) = 1)) : Rat) =
        ((inst.graph.num_verts - 1 : Nat) : Rat) := by
      rw [hsat]
      push_cast [Nat.cast_sub (Nat.one_le_iff_ne_zero.mpr (Nat.pos_iff_ne_zero.mp hn))]
      ring
    exact_mod_cast this
  · intro v hv hne
    have hsat := hfeas.2 _ (inbound_constraint_mem inst v hv hne)
    rw [show satC a (Constr.ceq
        ⟨(neighbor_list inst.graph v).map fun u => (1, VK.y u v), 0⟩
        (constExpr 1)) =
        (evalExpr a ⟨(neighbor_list inst.graph v).map fun u => (1, VK.y u v), 0⟩ =
         evalExpr a (constExpr 1)) from rfl] at hsat
    have hyv : ∀ u ∈ neighbor_list inst.graph v,
        a (VK.y u v) = 0 ∨ a (VK.y u v) = 1 := by
      intro u hu
      exact hy (u, v) (neighbor_mem_yVarPairs inst.graph u v hu)
    rw [evalExpr_ones, evalExpr_const,
      sum_eq_countP (fun u : Nat => a (VK.y u v))
        (neighbor_list inst.graph v) hyv] at hsat
    have : (((neighbor_list inst.graph v).countP
        fun u => decide (a (VK.y u v) = 1)) : Rat) = ((1 : Nat) : Rat) := by
      rw [hsat]; norm_num
    exact_mod_cast this
  · have hsat := hfeas.2 _ (root_inbound_constraint_mem inst)
    unfold root_inbound_constraint at hsat
    rw [show satC a (Constr.ceq
        ⟨(neighbor_list inst.graph inst.root).map
          fun u => (1, VK.y u inst.root), 0⟩
        (constExpr 0)) =
        (evalExpr a ⟨(neighbor_list inst.graph inst.root).map
          fun u => (1, VK.y u inst.root), 0⟩ =
         evalExpr a (constExpr 0)) from rfl] at hsat
    have hyr : ∀ u ∈ neighbor_list inst.graph inst.root,
        a (VK.y u inst.root) = 0 ∨ a (VK.y u inst.root) = 1 := by
      intro u hu
      exact hy (u, inst.root)
        (neighbor_mem_yVarPairs inst.graph u inst.root hu)
    rw [evalExpr_ones, evalExpr_const,
      sum_eq_countP (fun u : Nat => a (VK.y u inst.root))
        (neighbor_list inst.graph inst.root) hyr] at hsat
    have : (((neighbor_list inst.graph inst.root).countP
        fun u => decide (a (VK.y u inst.root) = 1)) : Rat) =
        ((0 : Nat) : Rat) := by
      rw [hsat]; norm_num
    exact_mod_cast this

/-- The unique spanning arborescence of the two-vertex instance as an
assignment: edge selected, oriented into vertex 1, levels 1 and 2. -/
def sigmaK2 : VK → Rat
  | VK.x 0 1 => 1
  | VK.y 0 1 => 1
  | VK.l 0 => 1
  | VK.l 1 => 2
  | _ => 0

theorem sigmaK2_x01 : sigmaK2 (VK.x 0 1) = 1 := rfl

theorem sigmaK2_y01 : sigmaK2 (VK.y 0 1) = 1 := rfl

theorem sigmaK2_y10 : sigmaK2 (VK.y 1 0) = 0 := rfl

theorem sigmaK2_l0 : sigmaK2 (VK.l 0) = 1 := rfl

theorem sigmaK2_l1 : sigmaK2 (VK.l 1) = 2 := rfl

/-- Witness for claim C4 at the two-vertex instance. -/
theorem create_model_forces_arborescence_degrees_witness :
    ((yVarPairs instK2.graph).countP
      fun e => decide (sigmaK2 (VK.y e.1 e.2) = 1)) =
      instK2.graph.num_verts - 1 ∧
    ((neighbor_list instK2.graph 1).countP
      fun u => decide (sigmaK2 (VK.y u 1) = 1)) = 1 ∧
    ((neighbor_list instK2.graph instK2.root).countP
      fun u => decide (sigmaK2 (VK.y u instK2.root) = 1)) = 0 := by
  have hfeas : feasible sigmaK2 (create_model instK2).1 := by
    have hx : (create_model instK2).1.xVars = [(0, 1)] := rfl
    have hyv : (create_model instK2).1.yVars = [(0, 1), (1, 0)] := rfl
    have hl : (create_model instK2).1.lVars =
        [(0, some 1, 2), (1, some 2, 2)] := rfl
    have hc : (create_model instK2).1.constraints =
        [Constr.ceq ⟨[(1, VK.x 0 1)], 0⟩ ⟨[(1, VK.y 0 1), (1, VK.y 1 0)], 0⟩,
         Constr.ceq ⟨[(1, VK.y 0 1), (1, VK.y 1 0)], 0⟩ (constExpr 1),
         Constr.ceq ⟨[(1, VK.y 0 1)], 0⟩ (constExpr 1),
         Constr.ceq ⟨[(1, VK.y 1 0)], 0⟩ (constExpr 0),
         Constr.ceq ⟨[(1, VK.l 0)], 0⟩ (constExpr 1)] := rfl
    refine ⟨⟨?_, ?_, ?_⟩, ?_⟩
    · intro e he
      rw [hx] at he
      have he2 := List.mem_singleton.mp he
      subst he2
      exact Or.inr sigmaK2_x01
    · intro e he
      rw [hyv] at he
      simp only [List.mem_cons, List.mem_singleton] at he
      rcases he with rfl | rfl | he
      · exact Or.inr sigmaK2_y01
      · exact Or.inl sigmaK2_y10
      · cases he
    · intro t ht
      rw [hl] at ht
      simp only [List.mem_cons, List.mem_singleton] at ht
      rcases ht with rfl | rfl | ht
      · refine ⟨?_, ?_⟩
        · show ((1 : Int) : Rat) ≤ sigmaK2 (VK.l 0)
          rw [sigmaK2_l0]; norm_num
        · show sigmaK2 (VK.l 0) ≤ ((2 : Int) : Rat)
          rw [sigmaK2_l0]; norm_num
      · refine ⟨?_, ?_⟩
        · show ((2 : Int) : Rat) ≤ sigmaK2 (VK.l 1)
          rw [sigmaK2_l1]; norm_num
        · show sigmaK2 (VK.l 1) ≤ ((2 : Int) : Rat)
          rw [sigmaK2_l1]; norm_num
      · cases ht
    · intro c hcm
      rw [hc] at hcm
      fin_cases hcm <;>
        · show evalExpr sigmaK2 _ = evalExpr sigmaK2 _
          simp [evalExpr, constExpr, sigmaK2_x01, sigmaK2_y01, sigmaK2_y10,
            sigmaK2_l0]
  have h := create_model_forces_arborescence_degrees instK2 sigmaK2
    (by decide) hfeas
  exact ⟨h.1, h.2.1 1 (by decide) (by decide), h.2.2⟩

end SageWS
